import Mathlib

/-!
# Verification of the Automated Attendance System core

Shallow embedding of the face-identification and attendance-marking core of
the repository (`app.py`, `mediapipe_face_recognition.py`), together with
theorems settling the specification claims.

External collaborators (the MediaPipe detection engine, the face-mesh model,
OpenCV image resizing) are modelled as explicit oracle parameters: the
embedding captures exactly what the repository's own Python code does with
the oracles' answers.  Floating-point values are modelled as real numbers;
relative bounding-box coordinates reported by the detector are modelled as
rationals so that the pixel arithmetic stays executable.
-/

namespace AttendanceSystem

/-! ## Attendance ledger (`app.py`)

`class Attendance(db.Model)` has columns `id`, `student_id`, `date`,
`time_in`, `status`.  The ledger is modelled as the list of inserted rows
(SQLAlchemy `session.add` + `commit` appends a row).  Dates and timestamps
are modelled as naturals. -/

structure Attendance where
  student_id : ℕ
  date : ℕ
  time_in : ℕ
  status : String
deriving DecidableEq

/-- One row-lookup predicate: `Attendance.query.filter_by(student_id=…, date=…)`. -/
def attMatches (sid d : ℕ) (r : Attendance) : Bool :=
  r.student_id == sid && r.date == d

/-- The check-then-insert step of `mark_attendance` in `app.py`
(lines 161–190) for one recognized student: query for an existing record
for `(student, today)`; if none, insert a new `Present` record; otherwise
leave the ledger unchanged and report "Already marked today". -/
def markStudent (led : List Attendance) (sid d now : ℕ) : List Attendance × String :=
  match led.find? (attMatches sid d) with
  | some _ => (led, "Already marked today")
  | none => (led ++ [⟨sid, d, now, "Present"⟩], "Attendance marked")

/-- Number of ledger rows for a given (student id, date) pair. -/
def countRec (led : List Attendance) (sid d : ℕ) : ℕ :=
  (led.filter (attMatches sid d)).length

/-- Run a sequence of sequential mark-attendance requests
(student id, date, timestamp) against a ledger. -/
def runRequests : List (ℕ × ℕ × ℕ) → List Attendance → List Attendance
  | [], led => led
  | (s, d, t) :: rest, led => runRequests rest (markStudent led s d t).1

/-! ## Face detection (`mediapipe_face_recognition.py`, `detect_faces`)

The MediaPipe engine call `self.face_detection.process(rgb_image)` is
modelled as an oracle `proc` returning either an exception (`Except.error`,
caught by the method's `try/except` which then returns `[]`) or the list of
raw detections.  A raw detection carries the relative bounding box and the
confidence score.  `image.shape[:2]` is the oracle `dims` (height, width). -/

structure Detection where
  xmin : ℚ
  ymin : ℚ
  rwidth : ℚ
  rheight : ℚ
  score : ℚ
deriving DecidableEq

/-- Python `int()` applied to a real quantity: truncation toward zero
(numerator divided by denominator with truncating division). -/
def truncQ (q : ℚ) : ℤ :=
  q.num.tdiv q.den

/-- The pixel bounding-box computation of `detect_faces` (lines 82–91):
scale the relative box to pixels, clamp `x`, `y` below at 0, then cap
`width` at `w - x` and `height` at `h - y`. -/
def clampBox (w h : ℤ) (d : Detection) : ℤ × ℤ × ℤ × ℤ :=
  let x := truncQ (d.xmin * w)
  let y := truncQ (d.ymin * h)
  let width := truncQ (d.rwidth * w)
  let height := truncQ (d.rheight * h)
  let x' := max 0 x
  let y' := max 0 y
  let width' := min width (w - x')
  let height' := min height (h - y')
  (x', y', width', height')

/-- One entry of the list returned by `detect_faces`: pixel bounding box,
detection confidence, and the crop `image[y:y+height, x:x+width]`, modelled
symbolically as the pair (image, box) over an abstract image type `ι`. -/
structure FaceInfo (ι : Type) where
  bbox : ℤ × ℤ × ℤ × ℤ
  confidence : ℚ
  face_region : ι × (ℤ × ℤ × ℤ × ℤ)
deriving DecidableEq

/-- `detect_faces` (lines 47–108): a `None` image yields `[]`; an exception
from the engine is caught and yields `[]`; otherwise every raw detection is
converted to a `FaceInfo` via `clampBox`.  (`results.detections` being empty
also yields `[]`, which is the `List.map` over `[]`.) -/
def detect_faces {ι : Type} (proc : ι → Except String (List Detection))
    (dims : ι → ℤ × ℤ) : Option ι → List (FaceInfo ι)
  | none => []
  | some img =>
    match proc img with
    | .error _ => []
    | .ok dets =>
      let hw := dims img
      dets.map fun d =>
        let b := clampBox hw.2 hw.1 d
        { bbox := b, confidence := d.score, face_region := (img, b) }

/-! ## Embeddings and similarity (`mediapipe_face_recognition.py`)

Float arrays are modelled as lists of reals.  `np.linalg.norm` is the square
root of the sum of squares; `np.dot` on equal-length arrays is the sum of
pointwise products. -/

/-- The engine object: `self.encoding_size = 128`,
`self.similarity_threshold = 0.3`. -/
structure MediaPipeFaceRecognition where
  encoding_size : ℕ
  similarity_threshold : ℝ

/-- The engine as constructed by `__init__`. -/
noncomputable def defaultEngine : MediaPipeFaceRecognition :=
  { encoding_size := 128, similarity_threshold := 3 / 10 }

/-- Sum of squares of a float array (so `np.linalg.norm v = √(normSq v)`). -/
def normSq (v : List ℝ) : ℝ :=
  (v.map (fun x => x ^ 2)).sum

/-- `np.dot` of two equal-length float arrays. -/
def dotL (a b : List ℝ) : ℝ :=
  (List.zipWith (fun x y => x * y) a b).sum

noncomputable section

open Classical

/-- `encoding / np.linalg.norm(encoding)` (line 161).  NB: numpy turns a
zero norm into NaN entries here; the real-valued model divides by zero and
yields the zero vector instead, so theorems about this path assume a
non-zero norm. -/
def normalizeL2 (v : List ℝ) : List ℝ :=
  v.map (fun x => x / Real.sqrt (normSq v))

/-- `_generate_basic_encoding` (lines 172–195), after the external
grayscale-resize step: divide the 32×32 pixel values by 255, then truncate
or zero-pad to `encoding_size`.  (The `except` branch returning
`np.zeros` is unreachable for the pure arithmetic modelled here.) -/
def generate_basic_encoding (self : MediaPipeFaceRecognition)
    (pixels : List ℝ) : List ℝ :=
  let encoding := pixels.map (fun x => x / 255)
  if self.encoding_size < encoding.length then encoding.take self.encoding_size
  else encoding ++ List.replicate (self.encoding_size - encoding.length) 0

/-- `generate_face_encoding` (lines 125–170) over a face crop of abstract
type `α`.  The externals are oracles: `szOf` gives `face_image.size` (the
`None`/empty guard), `mesh` gives the flattened `[x, y, z]` landmark stream
of `self.face_mesh.process` (or `None` when no landmarks were found), and
`gray32` gives the grayscale 32×32 resize used by the fallback.  The
primary path takes the first `encoding_size` landmark coordinates and
L2-normalizes them. -/
def generate_face_encoding (self : MediaPipeFaceRecognition) {α : Type}
    (mesh : α → Option (List ℝ)) (gray32 : α → List ℝ) (szOf : α → ℕ) :
    Option α → Option (List ℝ)
  | none => none
  | some img =>
    if szOf img = 0 then none
    else
      match mesh img with
      | some landmark_points =>
        some (normalizeL2 (landmark_points.take self.encoding_size))
      | none => some (generate_basic_encoding self (gray32 img))

/-- `compare_faces` (lines 197–234): truncate both encodings to the shorter
length, compute cosine similarity, rescale to [0,1]; return 0.0 when either
truncated vector has zero norm.  (The Python `None` guard on the arguments
corresponds to the `Option`-typed call sites; encodings reaching this
function are plain arrays.) -/
def compare_faces (encoding1 encoding2 : List ℝ) : ℝ :=
  let min_len := min encoding1.length encoding2.length
  let enc1 := encoding1.take min_len
  let enc2 := encoding2.take min_len
  let dot_product := dotL enc1 enc2
  let norm1 := Real.sqrt (normSq enc1)
  let norm2 := Real.sqrt (normSq enc2)
  if norm1 = 0 ∨ norm2 = 0 then 0
  else (dot_product / (norm1 * norm2) + 1) / 2

/-- The specification's similarity formula (spec §4.4): cosine similarity
`⟨a,b⟩ / (‖a‖·‖b‖)` of the two full vectors.  Stated separately from
`compare_faces` so that the claim "similarity equals cosine similarity
rescaled to [0,1]" can be expressed as a relation between the two. -/
def cosineSim (a b : List ℝ) : ℝ :=
  dotL a b / (Real.sqrt (normSq a) * Real.sqrt (normSq b))

/-- One gallery entry of `known_faces`: a Python dict that may or may not
carry an `'encoding'` key, plus its student metadata. -/
structure KnownFace where
  encoding : Option (List ℝ)
  info : String

/-- The inner loop of `identify_faces` (lines 258–268): fold over the
gallery carrying `best_match` and `best_similarity` (initially `None` and
`0.0`); an entry without an `'encoding'` key is skipped; an entry is taken
as the new best exactly when its similarity strictly exceeds both the
running best and the threshold. -/
def matchLoop (t : ℝ) (q : List ℝ) :
    List KnownFace → Option KnownFace → ℝ → Option KnownFace × ℝ
  | [], best, bestSim => (best, bestSim)
  | kf :: rest, best, bestSim =>
    match kf.encoding with
    | none => matchLoop t q rest best bestSim
    | some enc =>
      let s := compare_faces q enc
      if bestSim < s ∧ t < s then matchLoop t q rest (some kf) s
      else matchLoop t q rest best bestSim

/-- The gallery matcher: the loop above started from
`best_match = None`, `best_similarity = 0.0`. -/
def matchGallery (t : ℝ) (q : List ℝ) (gallery : List KnownFace) :
    Option KnownFace × ℝ :=
  matchLoop t q gallery none 0

/-- One element of the list returned by `identify_faces`
(lines 271–278). -/
structure FaceResult where
  bbox : ℤ × ℤ × ℤ × ℤ
  confidence : ℚ
  similarity : ℝ
  identified : Bool
  student_info : Option KnownFace
  encoding : List ℝ

/-- `identify_faces` (lines 236–285): detect faces, generate an encoding
for each detected face's crop, and for each face whose encoding is not
`None` append the match result against `known_faces` under
`self.similarity_threshold`.  Faces whose encoding is `None` produce no
entry (the `if face_encoding is not None` guard). -/
def identify_faces (self : MediaPipeFaceRecognition) {ι : Type}
    (proc : ι → Except String (List Detection)) (dims : ι → ℤ × ℤ)
    (mesh : ι × (ℤ × ℤ × ℤ × ℤ) → Option (List ℝ))
    (gray32 : ι × (ℤ × ℤ × ℤ × ℤ) → List ℝ)
    (szOf : ι × (ℤ × ℤ × ℤ × ℤ) → ℕ)
    (image : Option ι) (known_faces : List KnownFace) : List FaceResult :=
  (detect_faces proc dims image).filterMap fun face =>
    (generate_face_encoding self mesh gray32 szOf (some face.face_region)).map
      fun enc =>
        let r := matchGallery self.similarity_threshold enc known_faces
        { bbox := face.bbox, confidence := face.confidence, similarity := r.2,
          identified := r.1.isSome, student_info := r.1, encoding := enc }

end

/-! ## Theorems: attendance ledger (C1) -/

lemma countRec_append_single (led : List Attendance) (r : Attendance) (sid d : ℕ) :
    countRec (led ++ [r]) sid d
      = countRec led sid d + (if attMatches sid d r then 1 else 0) := by
  simp only [countRec, List.filter_append]
  cases h : attMatches sid d r <;> simp [h]

lemma countRec_eq_zero_iff (led : List Attendance) (sid d : ℕ) :
    countRec led sid d = 0 ↔ ∀ r ∈ led, ¬ attMatches sid d r = true := by
  simp only [countRec, List.length_eq_zero, List.filter_eq_nil_iff]

lemma markStudent_preserves (led : List Attendance) (sid d now : ℕ)
    (h : ∀ s' d', countRec led s' d' ≤ 1) :
    ∀ s' d', countRec (markStudent led sid d now).1 s' d' ≤ 1 := by
  intro s' d'
  unfold markStudent
  cases hf : led.find? (attMatches sid d) with
  | some r => simpa using h s' d'
  | none =>
    simp only
    rw [countRec_append_single]
    by_cases hm : attMatches s' d' ⟨sid, d, now, "Present"⟩ = true
    · have hsd : sid = s' ∧ d = d' := by
        simpa [attMatches] using hm
      have hz : countRec led s' d' = 0 := by
        rw [countRec_eq_zero_iff]
        intro r hr
        have := List.find?_eq_none.mp hf r hr
        simpa [hsd.1, hsd.2] using this
      simp [hz, hm]
    · simpa [hm] using h s' d'

lemma runRequests_preserves (reqs : List (ℕ × ℕ × ℕ)) :
    ∀ led, (∀ s' d', countRec led s' d' ≤ 1) →
      ∀ s' d', countRec (runRequests reqs led) s' d' ≤ 1 := by
  induction reqs with
  | nil => intro led h s' d'; simpa [runRequests] using h s' d'
  | cons req rest ih =>
    intro led h s' d'
    obtain ⟨s, d, t⟩ := req
    exact ih (markStudent led s d t).1 (markStudent_preserves led s d t h) s' d'

lemma markStudent_fresh (led : List Attendance) (sid d now : ℕ)
    (h : countRec led sid d = 0) :
    markStudent led sid d now
      = (led ++ [⟨sid, d, now, "Present"⟩], "Attendance marked") := by
  have hf : led.find? (attMatches sid d) = none :=
    List.find?_eq_none.mpr ((countRec_eq_zero_iff led sid d).mp h)
  simp [markStudent, hf]

lemma markStudent_existing (led : List Attendance) (sid d now : ℕ)
    (h : ∃ r ∈ led, attMatches sid d r = true) :
    markStudent led sid d now = (led, "Already marked today") := by
  have hf : (led.find? (attMatches sid d)).isSome := by
    rw [List.find?_isSome]
    simpa using h
  obtain ⟨r, hr⟩ := Option.isSome_iff_exists.mp hf
  simp [markStudent, hr]

/-- C1: for every student id and date, after any sequence of sequential
mark-attendance requests starting from an empty ledger the ledger contains
at most one record for that (student, date); and two consecutive requests
for the same student on the same day yield "Attendance marked" then
"Already marked today", exactly one record for that pair exists afterward,
and the second request leaves the ledger unchanged. -/
theorem mark_attendance_once_per_day :
    (∀ (reqs : List (ℕ × ℕ × ℕ)) (sid d : ℕ),
      countRec (runRequests reqs []) sid d ≤ 1) ∧
    (∀ (led : List Attendance) (sid d t₁ t₂ : ℕ),
      countRec led sid d = 0 →
      (markStudent led sid d t₁).2 = "Attendance marked" ∧
      (markStudent (markStudent led sid d t₁).1 sid d t₂).2
        = "Already marked today" ∧
      (markStudent (markStudent led sid d t₁).1 sid d t₂).1
        = (markStudent led sid d t₁).1 ∧
      countRec (markStudent led sid d t₁).1 sid d = 1) := by
  constructor
  · intro reqs sid d
    exact runRequests_preserves reqs [] (by intro s' d'; simp [countRec]) sid d
  · intro led sid d t₁ t₂ h
    have h₁ := markStudent_fresh led sid d t₁ h
    have hmem : ∃ r ∈ (markStudent led sid d t₁).1, attMatches sid d r = true := by
      refine ⟨⟨sid, d, t₁, "Present"⟩, ?_, by simp [attMatches]⟩
      rw [h₁]
      simp
    have h₂ := markStudent_existing (markStudent led sid d t₁).1 sid d t₂ hmem
    refine ⟨by rw [h₁], by rw [h₂], by rw [h₂], ?_⟩
    rw [h₁, countRec_append_single, h]
    simp [attMatches]

/-- Witness for C1 at a concrete ledger and request sequence. -/
theorem mark_attendance_once_per_day_witness :
    countRec (runRequests [(7, 3, 10), (7, 3, 11)] []) 7 3 ≤ 1 ∧
    ((markStudent [] 7 3 10).2 = "Attendance marked" ∧
      (markStudent (markStudent [] 7 3 10).1 7 3 11).2 = "Already marked today" ∧
      (markStudent (markStudent [] 7 3 10).1 7 3 11).1 = (markStudent [] 7 3 10).1 ∧
      countRec (markStudent [] 7 3 10).1 7 3 = 1) :=
  ⟨mark_attendance_once_per_day.1 [(7, 3, 10), (7, 3, 11)] 7 3,
    mark_attendance_once_per_day.2 [] 7 3 10 11 (by decide)⟩

/-! ## Theorems: face detection (C8, C10) -/

lemma clampBox_bounds (w h : ℤ) (d : Detection) :
    0 ≤ (clampBox w h d).1 ∧ 0 ≤ (clampBox w h d).2.1 ∧
    (clampBox w h d).1 + (clampBox w h d).2.2.1 ≤ w ∧
    (clampBox w h d).2.1 + (clampBox w h d).2.2.2 ≤ h := by
  simp only [clampBox]
  refine ⟨le_max_left 0 _, le_max_left 0 _, ?_, ?_⟩ <;> omega

/-- C8 counterexample: a detection with a negative relative width on a
100×100 image passes through `detect_faces` with bounding-box width −100,
so the returned width is not positive (and the claimed invariant
`width > 0` fails). -/
theorem detect_faces_negative_width_cex :
    (detect_faces (fun _ : Unit => Except.ok [⟨0, 0, -1, 2, 9/10⟩])
        (fun _ => (100, 100)) (some ())).map FaceInfo.bbox
      = [(0, 0, -100, 100)] ∧ ¬ (0 : ℤ) < -100 := by
  constructor
  · norm_num [detect_faces, clampBox, truncQ]
  · decide

/-- C8 as amended: every face returned by `detect_faces` has
`0 ≤ x`, `0 ≤ y`, `x + width ≤ image width` and `y + height ≤ image
height` (so a box with positive width and height lies entirely within the
image), but `width > 0` and `height > 0` are not guaranteed: negative or
out-of-range detector coordinates can yield a non-positive width or
height, which is propagated. -/
theorem detect_faces_bbox_clamped (ι : Type)
    (proc : ι → Except String (List Detection)) (dims : ι → ℤ × ℤ)
    (img : ι) (face : FaceInfo ι)
    (hmem : face ∈ detect_faces proc dims (some img)) :
    0 ≤ face.bbox.1 ∧ 0 ≤ face.bbox.2.1 ∧
    face.bbox.1 + face.bbox.2.2.1 ≤ (dims img).2 ∧
    face.bbox.2.1 + face.bbox.2.2.2 ≤ (dims img).1 := by
  cases hp : proc img with
  | error e => simp [detect_faces, hp] at hmem
  | ok dets =>
    simp only [detect_faces, hp, List.mem_map] at hmem
    obtain ⟨d, _, hd⟩ := hmem
    subst hd
    exact clampBox_bounds (dims img).2 (dims img).1 d

/-- Witness for C8 (amended) at a concrete detection. -/
theorem detect_faces_bbox_clamped_witness :
    0 ≤ (FaceInfo.mk ((0 : ℤ), (0 : ℤ), (0 : ℤ), (0 : ℤ)) (9/10)
        ((), (0, 0, 0, 0)) : FaceInfo Unit).bbox.1 := by
  have hmem : (FaceInfo.mk (0, 0, 0, 0) (9/10) ((), (0, 0, 0, 0)) : FaceInfo Unit)
      ∈ detect_faces (fun _ : Unit => Except.ok [⟨0, 0, 0, 0, 9/10⟩])
        (fun _ => (100, 100)) (some ()) := by
    norm_num [detect_faces, clampBox, truncQ]
  have h := detect_faces_bbox_clamped Unit
    (fun _ => Except.ok [⟨0, 0, 0, 0, 9/10⟩])
    (fun _ => (100, 100)) ()
    (FaceInfo.mk (0, 0, 0, 0) (9/10) ((), (0, 0, 0, 0))) hmem
  exact h.1

/-- C10: `detect_faces` always returns a (possibly empty) list: a `None`
image yields `[]`, an exception raised by the underlying detection engine
is caught and yields `[]`, and a genuine empty detection result also yields
`[]` — so a detection failure is indistinguishable from "no faces found"
at the interface. -/
theorem detect_faces_never_raises (ι : Type)
    (proc : ι → Except String (List Detection)) (dims : ι → ℤ × ℤ) :
    detect_faces proc dims none = [] ∧
    (∀ (img : ι) (e : String), proc img = Except.error e →
      detect_faces proc dims (some img) = []) ∧
    (∀ img : ι, proc img = Except.ok [] →
      detect_faces proc dims (some img) = []) := by
  refine ⟨rfl, ?_, ?_⟩
  · intro img e he
    simp [detect_faces, he]
  · intro img he
    simp [detect_faces, he]

/-- Witness for C10 at a concrete failing engine. -/
theorem detect_faces_never_raises_witness :
    detect_faces (fun _ : Unit => (Except.error "engine failure" :
        Except String (List Detection))) (fun _ => (100, 100)) (some ()) = [] :=
  (detect_faces_never_raises Unit _ (fun _ => (100, 100))).2.1 () "engine failure" rfl

/-! ## Norms, dot products and similarity bounds -/

lemma normSq_nil : normSq [] = 0 := rfl

lemma normSq_cons (x : ℝ) (v : List ℝ) : normSq (x :: v) = x ^ 2 + normSq v := by
  simp [normSq]

lemma normSq_nonneg (v : List ℝ) : 0 ≤ normSq v := by
  induction v with
  | nil => simp [normSq_nil]
  | cons x v ih => rw [normSq_cons]; positivity

lemma normSq_eq_zero_iff (v : List ℝ) : normSq v = 0 ↔ ∀ x ∈ v, x = 0 := by
  induction v with
  | nil => simp [normSq_nil]
  | cons x v ih =>
    rw [normSq_cons]
    constructor
    · intro h
      have hx : x ^ 2 = 0 ∧ normSq v = 0 := by
        constructor <;> nlinarith [sq_nonneg x, normSq_nonneg v]
      have hx0 : x = 0 := by
        have := hx.1
        nlinarith [this]
      intro y hy
      rcases List.mem_cons.mp hy with h1 | h2
      · exact h1 ▸ hx0
      · exact (ih.mp hx.2) y h2
    · intro h
      have hx0 : x = 0 := h x (List.mem_cons_self x v)
      have hv : normSq v = 0 := ih.mpr (fun y hy => h y (List.mem_cons_of_mem x hy))
      rw [hx0, hv]
      ring

lemma normSq_take_eq_zero (v : List ℝ) (k : ℕ) (h : normSq v = 0) :
    normSq (v.take k) = 0 := by
  rw [normSq_eq_zero_iff] at h ⊢
  exact fun x hx => h x (List.mem_of_mem_take hx)

/-- Cauchy–Schwarz for list dot products. -/
lemma dotL_sq_le (a : List ℝ) : ∀ b : List ℝ, (dotL a b) ^ 2 ≤ normSq a * normSq b := by
  induction a with
  | nil => intro b; simp [dotL, normSq]
  | cons x a ih =>
    intro b
    cases b with
    | nil => simp [dotL, normSq]
    | cons y b =>
      have hA : 0 ≤ normSq a := normSq_nonneg a
      have hB : 0 ≤ normSq b := normSq_nonneg b
      have hD := ih b
      have hgoal : (x * y + dotL a b) ^ 2
          ≤ (x ^ 2 + normSq a) * (y ^ 2 + normSq b) := by
        rcases eq_or_lt_of_le hB with hB0 | hBpos
        · have hB0' : normSq b = 0 := hB0.symm
          have hD0 : dotL a b = 0 := by nlinarith [sq_nonneg (dotL a b)]
          rw [hD0, hB0']
          nlinarith [mul_nonneg hA (sq_nonneg y)]
        · nlinarith [sq_nonneg (x * normSq b - y * dotL a b),
            mul_nonneg (sq_nonneg y) (sub_nonneg.mpr hD),
            mul_nonneg hBpos.le (sub_nonneg.mpr hD)]
      calc (dotL (x :: a) (y :: b)) ^ 2 = (x * y + dotL a b) ^ 2 := by
            simp [dotL]
        _ ≤ (x ^ 2 + normSq a) * (y ^ 2 + normSq b) := hgoal
        _ = normSq (x :: a) * normSq (y :: b) := by rw [normSq_cons, normSq_cons]

lemma abs_dotL_le (a b : List ℝ) :
    |dotL a b| ≤ Real.sqrt (normSq a) * Real.sqrt (normSq b) := by
  have h1 : |dotL a b| = Real.sqrt ((dotL a b) ^ 2) := (Real.sqrt_sq_eq_abs _).symm
  rw [h1, ← Real.sqrt_mul (normSq_nonneg a)]
  exact Real.sqrt_le_sqrt (dotL_sq_le a b)

/-! ## Theorems: similarity scorer (C6) -/

lemma compare_faces_of_zero (a b : List ℝ)
    (h : normSq (a.take (min a.length b.length)) = 0 ∨
      normSq (b.take (min a.length b.length)) = 0) :
    compare_faces a b = 0 := by
  simp only [compare_faces]
  rw [if_pos]
  rcases h with h | h
  · exact Or.inl (by rw [h, Real.sqrt_zero])
  · exact Or.inr (by rw [h, Real.sqrt_zero])

lemma compare_faces_mem_unit (a b : List ℝ) :
    0 ≤ compare_faces a b ∧ compare_faces a b ≤ 1 := by
  simp only [compare_faces]
  by_cases h : Real.sqrt (normSq (a.take (min a.length b.length))) = 0 ∨
      Real.sqrt (normSq (b.take (min a.length b.length))) = 0
  · rw [if_pos h]
    norm_num
  · rw [if_neg h]
    push_neg at h
    have hn1 : 0 < Real.sqrt (normSq (a.take (min a.length b.length))) :=
      lt_of_le_of_ne (Real.sqrt_nonneg _) (Ne.symm h.1)
    have hn2 : 0 < Real.sqrt (normSq (b.take (min a.length b.length))) :=
      lt_of_le_of_ne (Real.sqrt_nonneg _) (Ne.symm h.2)
    have habs := abs_dotL_le (a.take (min a.length b.length))
      (b.take (min a.length b.length))
    have hub := (abs_le.mp habs).2
    have hlb := (abs_le.mp habs).1
    have hpos := mul_pos hn1 hn2
    constructor
    · have hq : -1 ≤ dotL (a.take (min a.length b.length))
          (b.take (min a.length b.length)) /
          (Real.sqrt (normSq (a.take (min a.length b.length))) *
            Real.sqrt (normSq (b.take (min a.length b.length)))) := by
        rw [le_div_iff₀ hpos]
        linarith
      linarith
    · have hq : dotL (a.take (min a.length b.length))
          (b.take (min a.length b.length)) /
          (Real.sqrt (normSq (a.take (min a.length b.length))) *
            Real.sqrt (normSq (b.take (min a.length b.length)))) ≤ 1 := by
        rw [div_le_one hpos]
        exact hub
      linarith

lemma compare_faces_cosine (a b : List ℝ) (hlen : a.length = b.length)
    (ha : normSq a ≠ 0) (hb : normSq b ≠ 0) :
    compare_faces a b = (cosineSim a b + 1) / 2 := by
  simp only [compare_faces]
  have hta : a.take (min a.length b.length) = a := by
    rw [hlen, min_self, ← hlen]
    exact List.take_length a
  have htb : b.take (min a.length b.length) = b := by
    rw [hlen, min_self]
    exact List.take_length b
  rw [hta, htb, if_neg]
  · rfl
  · push_neg
    constructor
    · have : 0 < normSq a := lt_of_le_of_ne (normSq_nonneg a) (Ne.symm ha)
      exact ne_of_gt (Real.sqrt_pos.mpr this)
    · have : 0 < normSq b := lt_of_le_of_ne (normSq_nonneg b) (Ne.symm hb)
      exact ne_of_gt (Real.sqrt_pos.mpr this)

/-- C6: the similarity score equals cosine similarity rescaled to [0,1] by
`(cos + 1) / 2`; the returned value always lies in `[0,1]`; and if either
vector has zero norm the result is exactly `0.0` (a total function — no
exception paths are modelled because the Python wraps the body in
`try/except` returning `0.0`). -/
theorem compare_faces_cosine_range (a b : List ℝ) :
    (0 ≤ compare_faces a b ∧ compare_faces a b ≤ 1) ∧
    ((normSq a = 0 ∨ normSq b = 0) → compare_faces a b = 0) ∧
    (a.length = b.length → normSq a ≠ 0 → normSq b ≠ 0 →
      compare_faces a b = (cosineSim a b + 1) / 2) := by
  refine ⟨compare_faces_mem_unit a b, ?_, compare_faces_cosine a b⟩
  intro h
  apply compare_faces_of_zero
  rcases h with h | h
  · exact Or.inl (normSq_take_eq_zero a _ h)
  · exact Or.inr (normSq_take_eq_zero b _ h)

/-! Evaluation helpers for concrete two-dimensional encodings. -/

lemma normSq_pair (x y : ℝ) : normSq [x, y] = x ^ 2 + y ^ 2 := by
  simp [normSq]

lemma dotL_pair (x1 y1 x2 y2 : ℝ) : dotL [x1, y1] [x2, y2] = x1 * x2 + y1 * y2 := by
  simp [dotL]

lemma compare_faces_orth : compare_faces [(1 : ℝ), 0] [0, 1] = 1 / 2 := by
  have ha : normSq [(1 : ℝ), 0] ≠ 0 := by norm_num [normSq_pair]
  have hb : normSq [(0 : ℝ), 1] ≠ 0 := by norm_num [normSq_pair]
  rw [compare_faces_cosine [(1 : ℝ), 0] [0, 1] (by simp) ha hb]
  norm_num [cosineSim, normSq_pair, dotL_pair, Real.sqrt_one]

lemma compare_faces_selfpair : compare_faces [(1 : ℝ), 0] [1, 0] = 1 := by
  have ha : normSq [(1 : ℝ), 0] ≠ 0 := by norm_num [normSq_pair]
  rw [compare_faces_cosine [(1 : ℝ), 0] [1, 0] (by simp) ha ha]
  norm_num [cosineSim, normSq_pair, dotL_pair, Real.sqrt_one]

/-- Witness for C6 at concrete encodings: orthogonal unit vectors score
`(0 + 1)/2 = 1/2`, and a zero vector scores `0.0`. -/
theorem compare_faces_cosine_range_witness :
    compare_faces [(1 : ℝ), 0] [0, 1] = (cosineSim [(1 : ℝ), 0] [0, 1] + 1) / 2 ∧
    compare_faces [(0 : ℝ), 0] [1, 0] = 0 := by
  constructor
  · exact (compare_faces_cosine_range [(1 : ℝ), 0] [0, 1]).2.2 rfl
      (by norm_num [normSq_pair]) (by norm_num [normSq_pair])
  · exact (compare_faces_cosine_range [(0 : ℝ), 0] [1, 0]).2.1
      (Or.inl (by norm_num [normSq_pair]))

/-! ## Theorems: gallery matcher (C2, C3, C7) -/

lemma matchGallery_def (t : ℝ) (q : List ℝ) (g : List KnownFace) :
    matchGallery t q g = matchLoop t q g none 0 := rfl

lemma matchLoop_nil (t : ℝ) (q : List ℝ) (best : Option KnownFace) (s : ℝ) :
    matchLoop t q [] best s = (best, s) := rfl

lemma matchLoop_cons_none (t : ℝ) (q : List ℝ) (kf : KnownFace)
    (rest : List KnownFace) (best : Option KnownFace) (s : ℝ)
    (henc : kf.encoding = none) :
    matchLoop t q (kf :: rest) best s = matchLoop t q rest best s := by
  simp only [matchLoop, henc]

lemma matchLoop_cons_some_pos (t : ℝ) (q : List ℝ) (kf : KnownFace)
    (rest : List KnownFace) (best : Option KnownFace) (s : ℝ) (enc : List ℝ)
    (henc : kf.encoding = some enc)
    (hc : s < compare_faces q enc ∧ t < compare_faces q enc) :
    matchLoop t q (kf :: rest) best s
      = matchLoop t q rest (some kf) (compare_faces q enc) := by
  simp only [matchLoop, henc]
  rw [if_pos hc]

lemma matchLoop_cons_some_neg (t : ℝ) (q : List ℝ) (kf : KnownFace)
    (rest : List KnownFace) (best : Option KnownFace) (s : ℝ) (enc : List ℝ)
    (henc : kf.encoding = some enc)
    (hc : ¬(s < compare_faces q enc ∧ t < compare_faces q enc)) :
    matchLoop t q (kf :: rest) best s = matchLoop t q rest best s := by
  simp only [matchLoop, henc]
  rw [if_neg hc]

lemma matchLoop_le (t : ℝ) (q : List ℝ) (g : List KnownFace) :
    ∀ (best : Option KnownFace) (s : ℝ), s ≤ (matchLoop t q g best s).2 := by
  induction g with
  | nil => intro best s; rw [matchLoop_nil]
  | cons kf rest ih =>
    intro best s
    cases henc : kf.encoding with
    | none =>
      rw [matchLoop_cons_none t q kf rest best s henc]
      exact ih best s
    | some enc =>
      by_cases hc : s < compare_faces q enc ∧ t < compare_faces q enc
      · rw [matchLoop_cons_some_pos t q kf rest best s enc henc hc]
        exact le_trans hc.1.le (ih (some kf) _)
      · rw [matchLoop_cons_some_neg t q kf rest best s enc henc hc]
        exact ih best s

lemma matchLoop_none_eq (t : ℝ) (q : List ℝ) (g : List KnownFace) :
    ∀ (best : Option KnownFace) (s : ℝ), (matchLoop t q g best s).1 = none →
      best = none ∧ (matchLoop t q g best s).2 = s := by
  induction g with
  | nil =>
    intro best s h
    rw [matchLoop_nil] at h ⊢
    exact ⟨h, rfl⟩
  | cons kf rest ih =>
    intro best s h
    cases henc : kf.encoding with
    | none =>
      rw [matchLoop_cons_none t q kf rest best s henc] at h ⊢
      exact ih best s h
    | some enc =>
      by_cases hc : s < compare_faces q enc ∧ t < compare_faces q enc
      · rw [matchLoop_cons_some_pos t q kf rest best s enc henc hc] at h
        exact absurd (ih (some kf) _ h).1 (by simp)
      · rw [matchLoop_cons_some_neg t q kf rest best s enc henc hc] at h ⊢
        exact ih best s h

lemma matchLoop_ub (t : ℝ) (q : List ℝ) (g : List KnownFace) :
    ∀ (best : Option KnownFace) (s : ℝ), ∀ kf' ∈ g, ∀ e, kf'.encoding = some e →
      compare_faces q e ≤ max (matchLoop t q g best s).2 t := by
  induction g with
  | nil => intro best s kf' h; simp at h
  | cons kf rest ih =>
    intro best s kf' hmem e he
    rcases List.mem_cons.mp hmem with rfl | hmem'
    · by_cases hc : s < compare_faces q e ∧ t < compare_faces q e
      · rw [matchLoop_cons_some_pos t q kf' rest best s e he hc]
        exact le_max_of_le_left (matchLoop_le t q rest (some kf') _)
      · rw [matchLoop_cons_some_neg t q kf' rest best s e he hc]
        rcases not_and_or.mp hc with h1 | h2
        · push_neg at h1
          exact le_max_of_le_left (h1.trans (matchLoop_le t q rest best s))
        · push_neg at h2
          exact le_max_of_le_right h2
    · cases henc : kf.encoding with
      | none =>
        rw [matchLoop_cons_none t q kf rest best s henc]
        exact ih best s kf' hmem' e he
      | some enc =>
        by_cases hc : s < compare_faces q enc ∧ t < compare_faces q enc
        · rw [matchLoop_cons_some_pos t q kf rest best s enc henc hc]
          exact ih (some kf) _ kf' hmem' e he
        · rw [matchLoop_cons_some_neg t q kf rest best s enc henc hc]
          exact ih best s kf' hmem' e he

/-- Full characterization of the matcher loop: either no entry ever fires
the update (result is the initial accumulator), or the result is the first
entry attaining the final best similarity, that similarity strictly exceeds
the threshold and the initial accumulator, and all earlier entries score
strictly below it. -/
lemma matchLoop_char (t : ℝ) (q : List ℝ) (g : List KnownFace) :
    ∀ (best : Option KnownFace) (s : ℝ),
      (matchLoop t q g best s = (best, s) ∧
        ∀ kf ∈ g, ∀ e, kf.encoding = some e →
          ¬(s < compare_faces q e ∧ t < compare_faces q e)) ∨
      (∃ g₁ kf g₂ e, g = g₁ ++ kf :: g₂ ∧ kf.encoding = some e ∧
        (matchLoop t q g best s).1 = some kf ∧
        (matchLoop t q g best s).2 = compare_faces q e ∧
        t < compare_faces q e ∧ s < compare_faces q e ∧
        ∀ kf' ∈ g₁, ∀ e', kf'.encoding = some e' →
          compare_faces q e' < (matchLoop t q g best s).2) := by
  induction g with
  | nil =>
    intro best s
    left
    exact ⟨matchLoop_nil t q best s, by simp⟩
  | cons kf rest ih =>
    intro best s
    cases henc : kf.encoding with
    | none =>
      have hrw := matchLoop_cons_none t q kf rest best s henc
      rcases ih best s with ⟨heq, hall⟩ |
        ⟨g₁, kf', g₂, e', hg, he', h1, h2, hT, hS, hstrict⟩
      · left
        refine ⟨by rw [hrw, heq], ?_⟩
        intro kf'' hmem e he
        rcases List.mem_cons.mp hmem with rfl | hmem'
        · rw [henc] at he
          exact absurd he (by simp)
        · exact hall kf'' hmem' e he
      · right
        refine ⟨kf :: g₁, kf', g₂, e', by rw [hg, List.cons_append], he', ?_, ?_, hT, hS, ?_⟩
        · rw [hrw]; exact h1
        · rw [hrw]; exact h2
        · intro kf'' hmem e'' he''
          rw [hrw]
          rcases List.mem_cons.mp hmem with rfl | hmem'
          · rw [henc] at he''
            exact absurd he'' (by simp)
          · exact hstrict kf'' hmem' e'' he''
    | some enc =>
      by_cases hc : s < compare_faces q enc ∧ t < compare_faces q enc
      · have hrw := matchLoop_cons_some_pos t q kf rest best s enc henc hc
        rcases ih (some kf) (compare_faces q enc) with ⟨heq, hall⟩ |
          ⟨g₁, kf', g₂, e', hg, he', h1, h2, hT, hS, hstrict⟩
        · right
          refine ⟨[], kf, rest, enc, by simp, henc, ?_, ?_, hc.2, hc.1, by simp⟩
          · rw [hrw, heq]
          · rw [hrw, heq]
        · right
          refine ⟨kf :: g₁, kf', g₂, e', by rw [hg, List.cons_append], he', ?_, ?_, hT,
            lt_trans hc.1 hS, ?_⟩
          · rw [hrw]; exact h1
          · rw [hrw]; exact h2
          · intro kf'' hmem e'' he''
            rw [hrw]
            rcases List.mem_cons.mp hmem with rfl | hmem'
            · rw [henc] at he''
              injection he'' with he3
              subst he3
              rw [h2]
              exact hS
            · exact hstrict kf'' hmem' e'' he''
      · have hrw := matchLoop_cons_some_neg t q kf rest best s enc henc hc
        rcases ih best s with ⟨heq, hall⟩ |
          ⟨g₁, kf', g₂, e', hg, he', h1, h2, hT, hS, hstrict⟩
        · left
          refine ⟨by rw [hrw, heq], ?_⟩
          intro kf'' hmem e he
          rcases List.mem_cons.mp hmem with rfl | hmem'
          · rw [henc] at he
            injection he with he3
            subst he3
            exact hc
          · exact hall kf'' hmem' e he
        · right
          refine ⟨kf :: g₁, kf', g₂, e', by rw [hg, List.cons_append], he', ?_, ?_, hT, hS, ?_⟩
          · rw [hrw]; exact h1
          · rw [hrw]; exact h2
          · intro kf'' hmem e'' he''
            rw [hrw]
            rcases List.mem_cons.mp hmem with rfl | hmem'
            · rw [henc] at he''
              injection he'' with he3
              subst he3
              rw [h2]
              rcases not_and_or.mp hc with h1' | h2'
              · push_neg at h1'
                exact lt_of_le_of_lt h1' hS
              · push_neg at h2'
                exact lt_of_le_of_lt h2' hT
            · exact hstrict kf'' hmem' e'' he''

/-- C2: for a non-negative threshold (the source's threshold is 0.3), the
identified flag is true iff some gallery entry carrying an encoding has
similarity strictly greater than the threshold; in particular a gallery
whose maximum similarity equals the threshold exactly yields
`identified = false`. -/
theorem identified_iff_above_threshold (t : ℝ) (q : List ℝ)
    (g : List KnownFace) (ht : 0 ≤ t) :
    ((matchGallery t q g).1.isSome = true ↔
      ∃ kf ∈ g, ∃ e, kf.encoding = some e ∧ t < compare_faces q e) ∧
    ((∃ kf ∈ g, ∃ e, kf.encoding = some e ∧ compare_faces q e = t) →
      (∀ kf ∈ g, ∀ e, kf.encoding = some e → compare_faces q e ≤ t) →
      (matchGallery t q g).1 = none) := by
  have hiff : (matchGallery t q g).1.isSome = true ↔
      ∃ kf ∈ g, ∃ e, kf.encoding = some e ∧ t < compare_faces q e := by
    constructor
    · intro hsome
      rcases matchLoop_char t q g none 0 with ⟨heq, hall⟩ |
        ⟨g₁, kf, g₂, e, hg, he, h1, h2, hT, hS, hstrict⟩
      · rw [matchGallery_def, heq] at hsome
        simp at hsome
      · refine ⟨kf, ?_, e, he, hT⟩
        rw [hg]
        exact List.mem_append_right g₁ (List.mem_cons_self kf g₂)
    · rintro ⟨kf, hmem, e, he, hT⟩
      rcases matchLoop_char t q g none 0 with ⟨heq, hall⟩ |
        ⟨g₁, kf', g₂, e', hg, he', h1, h2, hT', hS', hstrict⟩
      · exact absurd ⟨lt_of_le_of_lt ht hT, hT⟩ (hall kf hmem e he)
      · rw [matchGallery_def, h1]
        rfl
  refine ⟨hiff, ?_⟩
  intro _ hle
  rw [← Option.not_isSome_iff_eq_none]
  intro hsome
  obtain ⟨kf, hmem, e, he, hT⟩ := hiff.mp hsome
  exact absurd (hle kf hmem e he) (not_le.mpr hT)

/-- Witness for C2: with threshold 1/2 and a single gallery entry whose
similarity to the query is exactly 1/2, the matcher does not identify. -/
theorem identified_iff_above_threshold_witness :
    (matchGallery (1/2) [(1 : ℝ), 0] [⟨some [0, 1], "A"⟩]).1 = none := by
  refine (identified_iff_above_threshold (1/2) [(1 : ℝ), 0]
    [⟨some [0, 1], "A"⟩] (by norm_num)).2
    ⟨⟨some [0, 1], "A"⟩, by simp, [0, 1], rfl, compare_faces_orth⟩ ?_
  intro kf hmem e he
  rcases List.mem_cons.mp hmem with rfl | h
  · simp only at he
    injection he with he1
    subst he1
    rw [compare_faces_orth]
  · simp at h

/-- C3 counterexample: with threshold 3/5, a gallery whose single entry has
similarity 1/2 to the query (so the maximum similarity over the gallery is
1/2) produces a match result whose reported similarity is 0, not the
maximum — the similarity reported for an unidentified face is not the
maximum of the gallery similarities. -/
theorem similarity_not_max_cex :
    (matchGallery (3/5) [(1 : ℝ), 0] [⟨some [0, 1], "A"⟩]).2 = 0 ∧
    compare_faces [(1 : ℝ), 0] [0, 1] = 1/2 ∧ ((0 : ℝ) ≠ 1/2) := by
  refine ⟨?_, compare_faces_orth, by norm_num⟩
  rw [matchGallery_def]
  rw [matchLoop_cons_some_neg (3/5) [(1 : ℝ), 0] ⟨some [0, 1], "A"⟩ [] none 0
    [0, 1] rfl (by rw [compare_faces_orth]; norm_num)]
  rfl

/-- C3 as amended: the matcher compares the query against every gallery
entry; when a face is identified, the reported similarity equals the
maximum similarity over the gallery and the matched entry is the first
entry in gallery order attaining that maximum; but when no entry exceeds
the threshold the reported similarity is 0.0, not the maximum (similarities
at or below the threshold never update the running best). -/
theorem match_similarity_is_max_amended (t : ℝ) (q : List ℝ)
    (g : List KnownFace) :
    (∀ kf, (matchGallery t q g).1 = some kf →
      ∃ e, kf.encoding = some e ∧
        (matchGallery t q g).2 = compare_faces q e ∧
        t < (matchGallery t q g).2 ∧
        (∀ kf' ∈ g, ∀ e', kf'.encoding = some e' →
          compare_faces q e' ≤ (matchGallery t q g).2) ∧
        ∃ g₁ g₂, g = g₁ ++ kf :: g₂ ∧
          ∀ kf' ∈ g₁, ∀ e', kf'.encoding = some e' →
            compare_faces q e' < (matchGallery t q g).2) ∧
    ((matchGallery t q g).1 = none → (matchGallery t q g).2 = 0) := by
  constructor
  · intro kf hsome
    rcases matchLoop_char t q g none 0 with ⟨heq, hall⟩ |
      ⟨g₁, kf', g₂, e, hg, he, h1, h2, hT, hS, hstrict⟩
    · rw [matchGallery_def, heq] at hsome
      exact absurd hsome (by simp)
    · have hkf : kf' = kf := by
        rw [matchGallery_def, h1] at hsome
        injection hsome
      subst hkf
      have ht2 : t < (matchGallery t q g).2 := by
        rw [matchGallery_def, h2]
        exact hT
      refine ⟨e, he, by rw [matchGallery_def, h2], ht2, ?_, g₁, g₂, hg, ?_⟩
      · intro kf'' hm e'' he''
        have hub := matchLoop_ub t q g none 0 kf'' hm e'' he''
        rw [matchGallery_def]
        rw [max_eq_left (le_of_lt (by rw [matchGallery_def] at ht2; exact ht2))]
          at hub
        exact hub
      · intro kf'' hm e'' he''
        rw [matchGallery_def]
        exact hstrict kf'' hm e'' he''
  · intro hnone
    rw [matchGallery_def] at hnone ⊢
    exact (matchLoop_none_eq t q g none 0 hnone).2

/-- Witness for C3 (amended) at a self-matching gallery entry. -/
theorem match_similarity_is_max_amended_witness :
    ∃ e, (⟨some [(1 : ℝ), 0], "A"⟩ : KnownFace).encoding = some e ∧
      (matchGallery (3/10) [(1 : ℝ), 0] [⟨some [(1 : ℝ), 0], "A"⟩]).2
        = compare_faces [(1 : ℝ), 0] e ∧
      (3 : ℝ)/10 < (matchGallery (3/10) [(1 : ℝ), 0] [⟨some [(1 : ℝ), 0], "A"⟩]).2 ∧
      (∀ kf' ∈ [(⟨some [(1 : ℝ), 0], "A"⟩ : KnownFace)], ∀ e',
        kf'.encoding = some e' →
        compare_faces [(1 : ℝ), 0] e'
          ≤ (matchGallery (3/10) [(1 : ℝ), 0] [⟨some [(1 : ℝ), 0], "A"⟩]).2) ∧
      ∃ g₁ g₂, [(⟨some [(1 : ℝ), 0], "A"⟩ : KnownFace)]
          = g₁ ++ (⟨some [(1 : ℝ), 0], "A"⟩ : KnownFace) :: g₂ ∧
        ∀ kf' ∈ g₁, ∀ e', kf'.encoding = some e' →
          compare_faces [(1 : ℝ), 0] e'
            < (matchGallery (3/10) [(1 : ℝ), 0] [⟨some [(1 : ℝ), 0], "A"⟩]).2 := by
  refine (match_similarity_is_max_amended (3/10) [(1 : ℝ), 0]
    [⟨some [(1 : ℝ), 0], "A"⟩]).1 ⟨some [(1 : ℝ), 0], "A"⟩ ?_
  rw [matchGallery_def]
  rw [matchLoop_cons_some_pos (3/10) [(1 : ℝ), 0] ⟨some [(1 : ℝ), 0], "A"⟩ []
    none 0 [(1 : ℝ), 0] rfl (by rw [compare_faces_selfpair]; norm_num)]
  rfl

/-- C7: matching any query embedding against an empty gallery under any
threshold returns no identification and similarity 0.0 (the matcher is a
total function — no error path exists). -/
theorem match_empty_gallery (t : ℝ) (q : List ℝ) :
    matchGallery t q [] = (none, 0) ∧
    (matchGallery t q []).1.isSome = false :=
  ⟨rfl, rfl⟩

/-! ## Theorems: identification pipeline (C4, C5, C9) -/

lemma length_filterMap_map_isSome {α β γ : Type} (l : List α)
    (h : α → Option β) (f : α → β → γ) :
    (l.filterMap (fun a => (h a).map (f a))).length
      = (l.filter (fun a => (h a).isSome)).length := by
  induction l with
  | nil => rfl
  | cons a l ih =>
    cases hh : h a with
    | none => simp [List.filterMap_cons, List.filter_cons, hh, ih]
    | some b => simp [List.filterMap_cons, List.filter_cons, hh, ih]

/-- C4 counterexample: an image with three detected faces of which one has
a degenerate (empty) crop yields an outcome list of length 2 — the
unembeddable face is silently dropped, with no undetermined marker (the
result record has no such field), not reported as a third outcome. -/
theorem undetermined_face_dropped_cex :
    (detect_faces
        (fun _ : Unit => Except.ok [⟨0, 0, 1, 1, 1⟩, ⟨1, 0, 1, 1, 1⟩, ⟨0, 0, 0, 0, 1⟩])
        (fun _ => (100, 100)) (some ())).length = 3 ∧
    (identify_faces defaultEngine
        (fun _ : Unit => Except.ok [⟨0, 0, 1, 1, 1⟩, ⟨1, 0, 1, 1, 1⟩, ⟨0, 0, 0, 0, 1⟩])
        (fun _ => (100, 100))
        (fun _ => none)
        (fun _ => List.replicate 1024 1)
        (fun r => if r.2 = ((0 : ℤ), (0 : ℤ), (0 : ℤ), (0 : ℤ)) then 0 else 1)
        (some ()) []).length = 2 := by
  constructor
  · norm_num [detect_faces]
  · norm_num [identify_faces, detect_faces, clampBox, truncQ,
      generate_face_encoding, List.filterMap_cons]

/-- C4 as amended: detected faces whose embedding extraction returns `None`
are silently omitted from the outcome list of `identify_faces` — the
outcome list has exactly one entry per embeddable detected face (no
undetermined marker is emitted for the others). -/
theorem identify_faces_drops_unembeddable (self : MediaPipeFaceRecognition)
    (ι : Type) (proc : ι → Except String (List Detection)) (dims : ι → ℤ × ℤ)
    (mesh : ι × (ℤ × ℤ × ℤ × ℤ) → Option (List ℝ))
    (gray32 : ι × (ℤ × ℤ × ℤ × ℤ) → List ℝ)
    (szOf : ι × (ℤ × ℤ × ℤ × ℤ) → ℕ)
    (image : Option ι) (known_faces : List KnownFace) :
    (identify_faces self proc dims mesh gray32 szOf image known_faces).length
      = ((detect_faces proc dims image).filter
          (fun f => (generate_face_encoding self mesh gray32 szOf
            (some f.face_region)).isSome)).length := by
  unfold identify_faces
  exact length_filterMap_map_isSome _ _ _

lemma normSq_map_div (v : List ℝ) (c : ℝ) :
    normSq (v.map (fun x => x / c)) = normSq v / c ^ 2 := by
  induction v with
  | nil => simp [normSq]
  | cons x v ih =>
    rw [List.map_cons, normSq_cons, normSq_cons, ih, div_pow, div_add_div_same]

lemma normSq_normalizeL2 (v : List ℝ) (h : normSq v ≠ 0) :
    normSq (normalizeL2 v) = 1 := by
  rw [normalizeL2, normSq_map_div, Real.sq_sqrt (normSq_nonneg v), div_self h]

lemma normSq_replicate_zero (k : ℕ) : normSq (List.replicate k (0 : ℝ)) = 0 := by
  rw [normSq, List.map_replicate]
  norm_num

lemma generate_basic_zero (self : MediaPipeFaceRecognition) (n : ℕ) :
    generate_basic_encoding self (List.replicate n 0)
      = List.replicate self.encoding_size 0 := by
  simp only [generate_basic_encoding, List.map_replicate, zero_div,
    List.length_replicate]
  by_cases h : self.encoding_size < n
  · rw [if_pos h, List.take_replicate, min_eq_left h.le]
  · rw [if_neg h, ← List.replicate_add]
    congr 1
    omega

/-- C5 counterexample: a face crop with no detectable landmarks whose
grayscale resize is all zeros (an all-black crop) makes the generator
return the zero embedding as a success (`some`), not a failure — the
generator does not reject zero vectors. -/
theorem zero_embedding_returned_cex :
    generate_face_encoding defaultEngine (fun _ : Unit => none)
        (fun _ => List.replicate 1024 0) (fun _ => 1) (some ())
      = some (List.replicate 128 0) ∧
    normSq (List.replicate 128 0) = 0 := by
  constructor
  · simp only [generate_face_encoding]
    rw [if_neg (by norm_num)]
    rw [generate_basic_zero defaultEngine 1024]
    rfl
  · exact normSq_replicate_zero 128

/-- C5 as amended: embeddings produced by the primary landmark path have
unit (hence non-zero) norm whenever the truncated landmark vector is
non-zero, but the pixel-statistics fallback performs no such rejection: an
all-black crop yields the zero embedding, returned as a success rather
than a failure. -/
theorem encoding_norm_amended (self : MediaPipeFaceRecognition) :
    (∀ (α : Type) (mesh : α → Option (List ℝ)) (gray32 : α → List ℝ)
      (szOf : α → ℕ) (img : α) (pts : List ℝ),
      szOf img ≠ 0 → mesh img = some pts →
      normSq (pts.take self.encoding_size) ≠ 0 →
      ∃ v, generate_face_encoding self mesh gray32 szOf (some img) = some v ∧
        normSq v = 1) ∧
    (∀ (α : Type) (mesh : α → Option (List ℝ)) (gray32 : α → List ℝ)
      (szOf : α → ℕ) (img : α) (n : ℕ),
      szOf img ≠ 0 → mesh img = none →
      gray32 img = List.replicate n 0 →
      generate_face_encoding self mesh gray32 szOf (some img)
        = some (List.replicate self.encoding_size 0) ∧
        normSq (List.replicate self.encoding_size 0) = 0) := by
  constructor
  · intro α mesh gray32 szOf img pts hsz hm hn
    refine ⟨normalizeL2 (pts.take self.encoding_size), ?_, normSq_normalizeL2 _ hn⟩
    simp only [generate_face_encoding]
    rw [if_neg hsz, hm]
  · intro α mesh gray32 szOf img n hsz hm hg
    refine ⟨?_, normSq_replicate_zero _⟩
    simp only [generate_face_encoding]
    rw [if_neg hsz, hm, hg, generate_basic_zero]

/-- Witness for C5 (amended): a two-coordinate landmark stream yields a
unit-norm embedding; an all-black 32×32 crop yields the zero embedding. -/
theorem encoding_norm_amended_witness :
    (∃ v, generate_face_encoding defaultEngine (fun _ : Unit => some [1, 0])
        (fun _ => []) (fun _ => 1) (some ()) = some v ∧ normSq v = 1) ∧
    (generate_face_encoding defaultEngine (fun _ : Unit => none)
        (fun _ => List.replicate 1024 0) (fun _ => 2) (some ())
      = some (List.replicate defaultEngine.encoding_size 0) ∧
      normSq (List.replicate defaultEngine.encoding_size 0) = 0) := by
  constructor
  · refine (encoding_norm_amended defaultEngine).1 Unit _ _ _ () [1, 0]
      (by norm_num) rfl ?_
    rw [List.take_of_length_le (by norm_num [defaultEngine])]
    norm_num [normSq_pair]
  · exact (encoding_norm_amended defaultEngine).2 Unit _ _ _ () 1024
      (by norm_num) rfl rfl

/-- C9: for a fixed image and gallery, the identification pipeline is a
deterministic function of the external engines' responses: any two
invocations whose detection, dimension, landmark, grayscale and size
oracles agree pointwise produce identical outcome lists — the repository's
own detection, embedding and matching code contains no hidden
randomness. -/
theorem identify_faces_deterministic (self : MediaPipeFaceRecognition)
    (ι : Type)
    (proc₁ proc₂ : ι → Except String (List Detection))
    (dims₁ dims₂ : ι → ℤ × ℤ)
    (mesh₁ mesh₂ : ι × (ℤ × ℤ × ℤ × ℤ) → Option (List ℝ))
    (gray₁ gray₂ : ι × (ℤ × ℤ × ℤ × ℤ) → List ℝ)
    (sz₁ sz₂ : ι × (ℤ × ℤ × ℤ × ℤ) → ℕ)
    (image : Option ι) (known_faces : List KnownFace)
    (hp : ∀ i, proc₁ i = proc₂ i) (hd : ∀ i, dims₁ i = dims₂ i)
    (hm : ∀ r, mesh₁ r = mesh₂ r) (hg : ∀ r, gray₁ r = gray₂ r)
    (hs : ∀ r, sz₁ r = sz₂ r) :
    identify_faces self proc₁ dims₁ mesh₁ gray₁ sz₁ image known_faces
      = identify_faces self proc₂ dims₂ mesh₂ gray₂ sz₂ image known_faces := by
  rw [funext hp, funext hd, funext hm, funext hg, funext hs]

/-- Witness for C9 at concrete oracles. -/
theorem identify_faces_deterministic_witness :
    identify_faces defaultEngine (fun _ : Unit => Except.ok [])
        (fun _ => (1, 1)) (fun _ => none) (fun _ => []) (fun _ => 1)
        (some ()) []
      = identify_faces defaultEngine (fun _ : Unit => Except.ok [])
        (fun _ => (1, 1)) (fun _ => none) (fun _ => []) (fun _ => 1)
        (some ()) [] :=
  identify_faces_deterministic defaultEngine Unit _ _ _ _ _ _ _ _ _ _
    (some ()) [] (fun _ => rfl) (fun _ => rfl) (fun _ => rfl) (fun _ => rfl)
    (fun _ => rfl)

end AttendanceSystem
